import Mathlib

/-!
Shallow embedding of the trade-scraper reconciliation and execution engine.

Each definition is translated from the corresponding Python source file of
the repository (`hyperliquid_executor.py`, `order_executor.py`,
`bybit_handler.py`, `hyperliquid_handler.py`, `trade_parser.py`,
`active_trades_scraper.py`, `trade_updates_scraper.py`, `state.py`).
Python floats are modelled as rationals, Python `None`-able values as
`Option`, Python exceptions as `Except`, and the DOM/regex scraping
boundary (which the spec treats as an external collaborator) as
already-extracted record fields.
-/

namespace TradeScraper

/-- Python truthiness of an optional float: `None` and `0.0` are falsy. -/
def truthyQ : Option ℚ → Bool
  | none => false
  | some q => q != 0

/-- Python truthiness of an optional string: `None` and `""` are falsy. -/
def truthyS : Option String → Bool
  | none => false
  | some s => s != ""

/-- Whether the first character list starts the second. -/
def leadsWith : List Char → List Char → Bool
  | [], _ => true
  | _ :: _, [] => false
  | p :: ps, c :: cs => p == c && leadsWith ps cs

/-- Whether the pattern occurs as a contiguous run of the character list. -/
def hasSub (pat : List Char) : List Char → Bool
  | [] => leadsWith pat []
  | c :: cs => leadsWith pat (c :: cs) || hasSub pat cs

/-- Python `pat in s` substring test. -/
def strContains (s pat : String) : Bool :=
  hasSub pat.data s.data

/-- Python `s.lower()` (ASCII case folding suffices for the error messages
compared here). -/
def strLower (s : String) : String :=
  String.mk (s.data.map Char.toLower)

/-- Drop leading whitespace characters. -/
def dropLeadSpaces : List Char → List Char
  | [] => []
  | c :: cs => if c.isWhitespace then dropLeadSpaces cs else c :: cs

/-- Python `s.strip()`: remove leading and trailing whitespace. -/
def strTrim (s : String) : String :=
  String.mk ((dropLeadSpaces (dropLeadSpaces s.data).reverse).reverse)

/-- Python `a or b` on optional strings (`None` and `""` are falsy). -/
def pyOrS (a b : Option String) : Option String :=
  match a with
  | some s => if s = "" then b else some s
  | none => b

/-- Python `a or b` on optional floats (`None` and `0.0` are falsy). -/
def pyOrQ (a b : Option ℚ) : Option ℚ :=
  match a with
  | some x => if x = 0 then b else some x
  | none => b

/-! ## Retry policy (`hyperliquid_executor.with_retry`) -/

/-- Outcome of a `with_retry`-wrapped venue call: a returned value, the
`return None` taken for a non-retryable ("precondition already satisfied")
error, or a propagated exception. -/
inductive RetryResult (α : Type) where
  | ok (a : α)
  | noop
  | failed (msg : String)
deriving DecidableEq, Repr

/-- Execution trace of `with_retry`: final outcome, the 0-based indices of
the attempts actually made, and the seconds slept between attempts. -/
structure RetryTrace (α : Type) where
  result : RetryResult α
  attempts : List ℕ
  sleeps : List ℕ
deriving DecidableEq, Repr

/-- `with_retry`'s non-retryable test: the lowercased error message contains
"already canceled", "not found" or "does not exist". -/
def nonRetryable (msg : String) : Bool :=
  let m := strLower msg
  strContains m "already canceled" || strContains m "not found" ||
    strContains m "does not exist"

/-- Loop body of `with_retry`: `fuel` counts the remaining iterations of
`for attempt in range(max_retries)`, `attempt` is the current index.
`call n` is the outcome of the wrapped venue call on attempt `n`. -/
def with_retry_aux {α : Type} (call : ℕ → Except String α) (max_retries : ℕ) :
    ℕ → ℕ → RetryTrace α
  | 0, _ => ⟨.noop, [], []⟩
  | fuel + 1, attempt =>
    match call attempt with
    | .ok a => ⟨.ok a, [attempt], []⟩
    | .error e =>
      if nonRetryable e then ⟨.noop, [attempt], []⟩
      else if attempt = max_retries - 1 then ⟨.failed e, [attempt], []⟩
      else
        let t := with_retry_aux call max_retries fuel (attempt + 1)
        ⟨t.result, attempt :: t.attempts, 2 ^ attempt :: t.sleeps⟩

/-- `hyperliquid_executor.with_retry(func, max_retries=3)`. -/
def with_retry {α : Type} (call : ℕ → Except String α) (max_retries : ℕ := 3) :
    RetryTrace α :=
  with_retry_aux call max_retries max_retries 0

/-! ## Entry-order fan-out (`hyperliquid_executor.place_orders`, tail) -/

/-- Per-entry retry outcomes of the concurrent `asyncio.gather` fan-out in
`place_orders`: one `with_retry`-wrapped call per entry price. -/
def place_orders_outcomes {α : Type} (callAt : ℚ → ℕ → Except String α)
    (entries : List ℚ) : List (RetryResult α) :=
  entries.map (fun p => (with_retry (callAt p)).result)

/-- `successful_orders = [o for o in orders if o and not isinstance(o, Exception)]`:
keeps only real results, dropping `None` no-ops and propagated exceptions. -/
def gather_successful {α : Type} (rs : List (RetryResult α)) : List α :=
  rs.filterMap (fun r =>
    match r with
    | .ok a => some a
    | _ => none)

/-! ## Symbol conversion (`hyperliquid_executor.convert_symbol`) -/

/-- `convert_symbol`: overrides table first, else rewrite a `/USDT` suffix
to `/USDC:USDC`. -/
def convert_symbol (overrides : List (String × String)) (symbol : String) :
    String :=
  match overrides.lookup symbol with
  | some s => s
  | none =>
    if symbol.endsWith "/USDT" then
      (symbol.replace "/USDT" "") ++ "/USDC:USDC"
    else symbol

/-! ## Order cancellation (`hyperliquid_executor.cancel_orders`, tail loop) -/

/-- An open order as returned by the direct Hyperliquid info query; only the
fields `cancel_orders` reads. -/
structure OpenOrder where
  oid : Option String
  id : Option String
  side : String
deriving DecidableEq, Repr

/-- The cancellation loop of `cancel_orders`: filter by side if given, then
cancel each order under `with_retry`, counting every order whose cancel call
did not raise (a `None` no-op result is counted as canceled). -/
def cancel_orders (cancelCall : String → ℕ → Except String Unit)
    (open_orders : List OpenOrder) (side : Option String) : ℕ :=
  if open_orders = [] then 0
  else
    let filtered :=
      match side with
      | some sd =>
        let order_side := if sd = "long" then "buy" else "sell"
        open_orders.filter (fun o => o.side.toLower = order_side.toLower)
      | none => open_orders
    if filtered = [] then 0
    else
      filtered.foldl (fun cnt o =>
        match pyOrS o.oid o.id with
        | some order_id =>
          if order_id ≠ "" then
            match (with_retry (cancelCall order_id)).result with
            | .failed _ => cnt
            | _ => cnt + 1
          else cnt
        | none => cnt) 0

/-! ## Position sizing -/

/-- `avg_entry = sum(entries) / len(entries)` as computed in `place_orders`. -/
def avg_of (entries : List ℚ) : ℚ :=
  entries.sum / (entries.length : ℚ)

/-- The per-entry order size computed by `hyperliquid_executor.place_orders`:
`risk_per_trade` of `None`/`0` selects the fixed $10-value test mode;
otherwise risk-based sizing with a $10 minimum-notional floor and with a
fallback to the $10 minimum whenever the stop distance is degenerate. -/
def hl_position_size (entries : List ℚ) (stop_loss : Option ℚ)
    (risk_per_trade : Option ℚ) : ℚ :=
  let avg_entry := avg_of entries
  if risk_per_trade = some 0 ∨ risk_per_trade = none then
    10 / avg_entry
  else
    let risk := risk_per_trade.getD 0
    if truthyQ stop_loss && (avg_entry != 0) then
      let sl := stop_loss.getD 0
      let stop_distance := |avg_entry - sl| / avg_entry
      if stop_distance > 0 then
        let position_value := risk / stop_distance
        let position_size := position_value / avg_entry
        let min_size := 10 / avg_entry
        if position_size * avg_entry < 10 then min_size else position_size
      else 10 / avg_entry
    else 10 / avg_entry

/-- Python 3 `round` to an integer (banker's rounding, half-to-even). -/
def pyRoundHalfEven (q : ℚ) : ℤ :=
  let f := ⌊q⌋
  let frac := q - (f : ℚ)
  if frac < 1 / 2 then f
  else if frac > 1 / 2 then f + 1
  else if f % 2 = 0 then f else f + 1

/-- `order_executor.calculate_position_size`: raises `ValueError` iff the
stop loss equals the entry price, else returns `round(risk / |entry - stop|, 3)`. -/
def calculate_position_size (entry_price stop_loss risk_dollars : ℚ) :
    Except String ℚ :=
  let risk_per_unit := |entry_price - stop_loss|
  if risk_per_unit = 0 then
    .error "Stop loss equals entry price - cannot calculate position size"
  else
    .ok ((pyRoundHalfEven (risk_dollars / risk_per_unit * 1000) : ℚ) / 1000)

/-- Whether an `Except` value is the error case. -/
def isError {ε α : Type} : Except ε α → Bool
  | .error _ => true
  | .ok _ => false

/-! ## Field extraction (`trade_parser.extract_trade_fields_from_text`) -/

/-- The regex-match results feeding `extract_trade_fields_from_text`; the
regex layer itself is the out-of-scope scraping boundary, so its outputs are
taken as inputs here. `trader_match` is group 1 of `(.*?)APP` stripped. -/
structure RegexMatches where
  trader_match : Option String
  symbol_match : Option String
  stop_match : Option ℚ
  tp_match : Option ℚ
  close_match : Option ℚ
  entry_matches : List ℚ
  text_has_long : Bool
  text_has_short : Bool
deriving DecidableEq, Repr

/-- The dict built by `extract_trade_fields_from_text` (its keys `"stop loss"`,
`"take profit"`, `"closed price"` are spelled with spaces in the source; they
are rendered here as the corresponding snake-case field names). -/
structure ParsedTrade where
  trader : String
  symbol : String
  direction : String
  entries : List ℚ
  avg_entry : ℚ
  stop_loss : ℚ
  take_profit : ℚ
  closed_price : Option ℚ
  multi_entry : Bool
deriving DecidableEq, Repr

/-- `extract_trade_fields_from_text`, after the regex layer: defaults the
trader to `"Unknown"`, derives the direction, averages the entries, and
returns `None` unless `all([symbol, stop, tp, direction, avg_entry])`
(Python truthiness, so a zero price or zero average fails the check). -/
def extract_trade_fields_from_text (m : RegexMatches) : Option ParsedTrade :=
  let trader := m.trader_match.getD "Unknown"
  let direction : Option String :=
    if m.text_has_long then some "long"
    else if m.text_has_short then some "short"
    else none
  let symbol := m.symbol_match.map String.toUpper
  let stop := m.stop_match
  let tp := m.tp_match
  let closed := m.close_match
  let entries := m.entry_matches
  let avg_entry : Option ℚ :=
    if entries != [] then some (avg_of entries) else none
  let multi_entry : Bool := entries.length > 1
  if truthyS symbol && truthyQ stop && truthyQ tp && truthyS direction &&
      truthyQ avg_entry then
    some ⟨trader, symbol.getD "", direction.getD "", entries,
      avg_entry.getD 0, stop.getD 0, tp.getD 0, closed, multi_entry⟩
  else none

/-! ## Trade data as read by the venue handlers -/

/-- The fields the venue handlers read from a `trade_data` dict (keys
`symbol`, `side`, `entries`, `stop_loss`, `take_profit`, `take_profit_list`,
`closed_price`, `risk_per_trade`, `trader`); absent keys are `none`/`[]`. -/
structure TradeData where
  trader : String
  symbol : Option String
  side : Option String
  entries : List ℚ
  stop_loss : Option ℚ
  take_profit : Option ℚ
  take_profit_list : List ℚ
  closed_price : Option ℚ
  risk_override : Option ℚ
deriving DecidableEq, Repr

/-! ## Bybit diff engine (`bybit_handler.handle_trade_update`) -/

/-- The four tracked diff keys of the Bybit UPDATE branch. -/
inductive TrackedKey where
  | entries
  | stop_loss
  | take_profit
  | closed_price
deriving DecidableEq, Repr

/-- A tracked field's value (`entries` is a list, the rest optional floats). -/
inductive FieldVal where
  | qList (l : List ℚ)
  | qOpt (o : Option ℚ)
deriving DecidableEq, Repr

/-- `trade_data.get(key)` for the four tracked keys. -/
def tradeField (td : TradeData) : TrackedKey → FieldVal
  | .entries => .qList td.entries
  | .stop_loss => .qOpt td.stop_loss
  | .take_profit => .qOpt td.take_profit
  | .closed_price => .qOpt td.closed_price

/-- The key list `["entries", "stop_loss", "take_profit", "closed_price"]`
iterated by the Bybit diff comprehension. -/
def trackedKeys : List TrackedKey :=
  [.entries, .stop_loss, .take_profit, .closed_price]

/-- The Bybit UPDATE diff: the tracked keys whose stored and incoming values
differ (value inequality). -/
def bybit_diffs (old_trade new_trade : TradeData) : List TrackedKey :=
  trackedKeys.filter (fun k => tradeField old_trade k ≠ tradeField new_trade k)

/-- Venue calls issued by `bybit_handler.handle_trade_update`. -/
inductive BybitAction where
  | cancelLimitOrders
  | placeLimitOrder
  | setTradingStop
  | closePosition
deriving DecidableEq, Repr

/-- The diff-driven action sequence of the Bybit UPDATE branch: entries
changes replace limit orders, stop/take-profit changes reset the trading
stop, and a closed-price change closes the position, in source order. -/
def bybit_update_actions (diffs : List TrackedKey) : List BybitAction :=
  (if TrackedKey.entries ∈ diffs then
    [BybitAction.cancelLimitOrders, BybitAction.placeLimitOrder] else [])
  ++ (if TrackedKey.stop_loss ∈ diffs ∨ TrackedKey.take_profit ∈ diffs then
    [BybitAction.setTradingStop] else [])
  ++ (if TrackedKey.closed_price ∈ diffs then
    [BybitAction.closePosition] else [])

/-- `bybit_handler.handle_trade_update`, as the list of venue calls it makes:
no client for the trader is a no-op; CREATE requires entries and stop loss;
UPDATE requires a stored record, computes the diff, and an empty diff is a
no-op. `clients` is the key set of `TRADER_TO_CLIENT`. -/
def bybit_handle_trade_update (clients : List String)
    (active_trades : List (String × TradeData)) (td : TradeData)
    (crud_type : String) (trade_url : String) : List BybitAction :=
  if td.trader ∉ clients then []
  else if crud_type = "CREATE" then
    if td.entries = [] ∨ ¬truthyQ td.stop_loss then []
    else
      [BybitAction.placeLimitOrder]
      ++ (if truthyQ td.take_profit ∨ truthyQ td.stop_loss then
        [BybitAction.setTradingStop] else [])
  else if crud_type = "UPDATE" then
    match active_trades.lookup trade_url with
    | none => []
    | some old_trade =>
      let diffs := bybit_diffs old_trade td
      if diffs = [] then []
      else bybit_update_actions diffs
  else []

/-! ## Hyperliquid handler (`hyperliquid_handler.py`) -/

/-- Venue calls issued by the Hyperliquid handler's sub-operations. -/
inductive HLAction where
  | placeOrders
  | cancelOrders
  | getPositionInfo
  | setSLTP
  | closeMarketOrder
deriving DecidableEq, Repr

/-- An order response as read back by the handlers (`amount`, `filled`,
`remaining` fields). -/
structure OrderResp where
  amount : Option ℚ
  filled : Option ℚ
  remaining : Option ℚ
deriving DecidableEq, Repr

/-- Venue responses observed during one handler run: the successful entry
orders returned by `place_orders`, the position's `szi` if any, and whether
the reduce-only close market order succeeds. -/
structure HLVenueOracle where
  entry_orders : List OrderResp
  position_szi : Option ℚ
  close_order_ok : Bool
deriving DecidableEq, Repr

/-- `FOLLOWED_TRADERS` with the default environment values from `config.py`. -/
def FOLLOWED_TRADERS : List String := ["Trader1", "Trader2", "Trader3"]

/-- `RISK_PER_TRADE` from `config.py`. -/
def RISK_PER_TRADE : ℚ := 1

/-- The handler's environment: the followed-trader set and the traders for
which `get_client_for_trader` returns a client (i.e. traders present in
`TRADER_SUBACCOUNT_MAP` whose subaccount has an initialized client). -/
structure HLEnv where
  followed : List String
  clients : List String
deriving DecidableEq, Repr

/-- `total_position_size` accumulation in `handle_create_trade`:
`order.get('amount') or order.get('filled') or order.get('remaining')`,
summing the values that are not `None`. -/
def create_total_size (orders : List OrderResp) : ℚ :=
  (orders.map (fun o => (pyOrQ o.amount (pyOrQ o.filled o.remaining)).getD 0)).sum

/-- The per-order fallback size recomputed in `handle_create_trade` when no
order reported an amount (same logic as `place_orders`, with `max`). -/
def create_fallback_size (entries : List ℚ) (stop_loss : ℚ)
    (risk_per_trade : Option ℚ) : ℚ :=
  let avg_entry := avg_of entries
  if risk_per_trade = some 0 ∨ risk_per_trade = none then 10 / avg_entry
  else
    let stop_distance := |avg_entry - stop_loss| / avg_entry
    if stop_distance > 0 then
      max ((risk_per_trade.getD 0 / stop_distance) / avg_entry) (10 / avg_entry)
    else 10 / avg_entry

/-- `hyperliquid_handler.handle_create_trade`: place entry orders, derive the
total position size (with fallback), then set SL/TP; returns the success
flag and the venue calls made. -/
def handle_create_trade (orc : HLVenueOracle) (entries : List ℚ)
    (stop_loss : Option ℚ) (side : Option String) (take_profit_list : List ℚ)
    (risk_per_trade : Option ℚ) : Bool × List HLAction :=
  if entries = [] ∨ ¬truthyQ stop_loss ∨ ¬truthyS side then (false, [])
  else
    let orders := orc.entry_orders
    if orders = [] then (false, [HLAction.placeOrders])
    else
      let total0 := create_total_size orders
      let total :=
        if total0 = 0 then
          create_fallback_size entries (stop_loss.getD 0) risk_per_trade
            * (orders.length : ℚ)
        else total0
      if (truthyQ stop_loss ∨ take_profit_list ≠ []) ∧ total > 0 then
        (true, [HLAction.placeOrders, HLAction.setSLTP])
      else (true, [HLAction.placeOrders])

/-- `hyperliquid_handler.handle_update_trade`: cancel existing orders, place
new entries when entries/side/stop-loss are all present, fall back to the
resting position size when the new orders report none, then update SL/TP;
always returns `True`. -/
def handle_update_trade (orc : HLVenueOracle) (entries : List ℚ)
    (stop_loss : Option ℚ) (side : Option String) (take_profit_list : List ℚ) :
    Bool × List HLAction :=
  let acts0 := [HLAction.cancelOrders]
  let placed := entries ≠ [] ∧ truthyS side ∧ truthyQ stop_loss
  let total1 : ℚ :=
    if placed then (orc.entry_orders.map (fun o => o.amount.getD 0)).sum else 0
  let acts1 := acts0 ++ (if placed then [HLAction.placeOrders] else [])
  let total2 : ℚ :=
    if total1 = 0 then
      match orc.position_szi with
      | some szi => if szi ≠ 0 then |szi| else 0
      | none => 0
    else total1
  let acts2 := acts1 ++ (if total1 = 0 then [HLAction.getPositionInfo] else [])
  let acts3 :=
    acts2 ++
      (if (truthyQ stop_loss ∨ take_profit_list ≠ []) ∧ truthyS side ∧
          total2 > 0 then [HLAction.setSLTP] else [])
  (true, acts3)

/-- `hyperliquid_executor.close_position`: cancel all orders, query the
position, and close it at market (reduce-only) if `szi` is nonzero. -/
def close_position (orc : HLVenueOracle) : Bool × List HLAction :=
  let acts := [HLAction.cancelOrders, HLAction.getPositionInfo]
  match orc.position_szi with
  | some szi =>
    if szi ≠ 0 then (orc.close_order_ok, acts ++ [HLAction.closeMarketOrder])
    else (true, acts)
  | none => (true, acts)

/-- `hyperliquid_handler.handle_close_trade` delegates to `close_position`. -/
def handle_close_trade (orc : HLVenueOracle) : Bool × List HLAction :=
  close_position orc

/-- `hyperliquid_handler.handle_trade_update`: validate the trader against
the followed set, obtain a client, require a symbol, then route by
`crud_type` through an `if`/`elif` chain — CREATE, else UPDATE, else
(CLOSE or a truthy `closed_price`), else unknown. Returns the success flag
and the venue calls made. -/
def hl_handle_trade_update (env : HLEnv) (orc : HLVenueOracle)
    (td : TradeData) (crud_type : String) : Bool × List HLAction :=
  let trader_name := strTrim td.trader
  if trader_name ∉ env.followed then (false, [])
  else if trader_name ∉ env.clients then (false, [])
  else if ¬truthyS td.symbol then (false, [])
  else
    let tp_to_use :=
      if td.take_profit_list ≠ [] then td.take_profit_list
      else
        match td.take_profit with
        | some tp => if tp ≠ 0 then [tp] else []
        | none => []
    let risk : Option ℚ := some (td.risk_override.getD RISK_PER_TRADE)
    if crud_type = "CREATE" then
      handle_create_trade orc td.entries td.stop_loss td.side tp_to_use risk
    else if crud_type = "UPDATE" then
      handle_update_trade orc td.entries td.stop_loss td.side tp_to_use
    else if crud_type = "CLOSE" ∨ truthyQ td.closed_price then
      handle_close_trade orc
    else (false, [])

/-! ## Ledger and persisted state (`state.py`) -/

/-- First-match association-list lookup, the dict read `d.get(url)`. -/
def lookupUrl {α : Type} : List (String × α) → String → Option α
  | [], _ => none
  | (k, v) :: t, u => if k = u then some v else lookupUrl t u

/-- Dict assignment `active_trades[url] = td` (later entries shadow earlier
ones under `lookupUrl`). -/
def ledgerSet {α : Type} (l : List (String × α)) (url : String) (td : α) :
    List (String × α) :=
  (url, td) :: l

/-- The persisted state document of `state.py`: the update-feed cursor, the
`active_trades` ledger (keyed by URL, storing values of type `α`), and the
seen-URL set of the create feed. -/
structure ScrapeState (α : Type) where
  last_trade_updates_message_id : Option String
  active_trades : List (String × α)
  all_seen_urls : Finset String
deriving DecidableEq

/-- Observable events of one poll cycle: a `save_state` call (with the full
state written) or a venue-action attempt for a URL (a `handle_trade_update`
invocation). -/
inductive Ev (α : Type) where
  | save (s : ScrapeState α)
  | attempt (url : String)
deriving DecidableEq

/-- The collaborators a poll cycle calls: the followed-trader set, the
page-visit-and-parse step for one URL (`Except.error` models any exception
while loading or locating the message, `none` an unparseable message), and
the venue handler (`Except.error` models an exception escaping it). -/
structure DriverParams (α : Type) where
  followed : List String
  fetchParse : String → Except Unit (Option α)
  handler : String → α → String → Except Unit Bool

/-- One iteration of the URL loop in
`trade_parser.update_active_trades_from_urls`: visit and parse the URL; on a
parse result call the handler (a venue-action attempt) and, when the handler
does not raise, store the parsed record in the ledger — even when the
handler returned `False`. Any exception is caught and skips the store. -/
def processUrlTraced {α : Type} (P : DriverParams α) (crud_type : String)
    (acc : List (String × α) × List (Ev α)) (url : String) :
    List (String × α) × List (Ev α) :=
  match P.fetchParse url with
  | .error _ => acc
  | .ok none => acc
  | .ok (some td) =>
    match P.handler crud_type td url with
    | .error _ => (acc.1, acc.2 ++ [Ev.attempt url])
    | .ok _ => (ledgerSet acc.1 url td, acc.2 ++ [Ev.attempt url])

/-- `trade_parser.update_active_trades_from_urls`: process each URL in
order, write the ledger back into the state, and `save_state`. -/
def update_active_trades_from_urls {α : Type} (P : DriverParams α)
    (urls : List String) (crud_type : String) (s : ScrapeState α) :
    ScrapeState α × List (Ev α) :=
  let r := urls.foldl (processUrlTraced P crud_type) (s.active_trades, [])
  let s1 : ScrapeState α := { s with active_trades := r.1 }
  (s1, r.2 ++ [Ev.save s1])

/-! ## Create-feed cycle (`active_trades_scraper.py`) -/

/-- A message block of the create feed, with the scraping layer already
applied: whether a content div exists, the first `strong`/`em` header text
(stripped), the link hrefs, and the `aria-label`s of the emoji images. -/
structure Block where
  has_content : Bool
  header : Option String
  urls : List String
  emojis : List String
deriving DecidableEq, Repr

/-- `EMOJI_MAP` from `active_trades_scraper.py`. -/
def EMOJI_MAP : List (String × String) :=
  [("🟢", "futures_long"), ("🔴", "futures_short"), ("🔵", "spot")]

/-- The first collection loop: the set of all trade URLs currently visible
(blocks without a content div are skipped). -/
def collect_current_urls (blocks : List Block) : Finset String :=
  blocks.foldl (fun s b => if b.has_content then s ∪ b.urls.toFinset else s) ∅

/-- `new_trade_urls = current_trade_urls - previous_seen_urls`: the
candidate set the change detector yields for one cycle. -/
def scrape_new_urls {α : Type} (blocks : List Block) (s : ScrapeState α) :
    Finset String :=
  collect_current_urls blocks \ s.all_seen_urls

/-- `filled`: some emoji is `:ChromaCheck2:`. -/
def block_filled (b : Block) : Bool :=
  b.emojis.contains ":ChromaCheck2:"

/-- `trade_type`: the last emoji found in `EMOJI_MAP` wins. -/
def block_trade_type (b : Block) : Option String :=
  b.emojis.foldl (fun t e =>
    match EMOJI_MAP.lookup e with
    | some v => some v
    | none => t) none

/-- The second loop of `scrape_and_parse_active_trades`: keep a URL when its
block has content and a followed-trader header, the URL is newly seen and
not already ledgered, and the emoji filter passes (not filled, a known
non-spot trade type). -/
def select_trade_urls {α : Type} (followed : List String)
    (blocks : List Block) (newUrls : Finset String)
    (active_trades : List (String × α)) : List String :=
  blocks.foldl (fun acc b =>
    if ¬b.has_content then acc
    else
      match b.header with
      | none => acc
      | some trader =>
        if trader ∉ followed then acc
        else
          acc ++ b.urls.filter (fun u =>
            decide (u ∈ newUrls) && (lookupUrl active_trades u).isNone &&
            !block_filled b &&
            (match block_trade_type b with
             | none => false
             | some t => t ≠ "spot"))) []

/-- `active_trades_scraper.scrape_and_parse_active_trades`: collect the
visible URLs, replace the stored seen-set wholesale and `save_state`
immediately, then — if any new URLs exist — filter them and run the CREATE
batch through `update_active_trades_from_urls`. -/
def scrape_and_parse_active_trades {α : Type} (P : DriverParams α)
    (blocks : List Block) (s : ScrapeState α) :
    ScrapeState α × List (Ev α) :=
  let current := collect_current_urls blocks
  let newUrls := scrape_new_urls blocks s
  let s1 : ScrapeState α := { s with all_seen_urls := current }
  if newUrls = ∅ then (s1, [Ev.save s1])
  else
    let trade_urls := select_trade_urls P.followed blocks newUrls s1.active_trades
    if trade_urls = [] then (s1, [Ev.save s1])
    else
      let r := update_active_trades_from_urls P trade_urls "CREATE" s1
      (r.1, Ev.save s1 :: r.2)

/-! ## Update-feed cycle (`trade_updates_scraper.py`) -/

/-- A message of the update feed: its id (the tail of the DOM id attribute)
and the href of its first `discord.com/channels` link, if any. -/
structure Msg where
  id : String
  href : Option String
deriving DecidableEq, Repr

/-- Loop state and body of `extract_new_trade_updates`: skip messages until
the anchor id is found, then collect every later message's link and id. -/
def extract_step (last_seen_id : String)
    (acc : Bool × List String × List String) (m : Msg) :
    Bool × List String × List String :=
  if ¬acc.1 then
    if m.id = last_seen_id then (true, acc.2.1, acc.2.2) else acc
  else
    match m.href with
    | some h => (acc.1, acc.2.1 ++ [h], acc.2.2 ++ [m.id])
    | none => acc

/-- `trade_updates_scraper.extract_new_trade_updates`. -/
def extract_new_trade_updates (msgs : List Msg) (last_seen_id : String) :
    List String × List String :=
  (msgs.foldl (extract_step last_seen_id) (false, [], [])).2

/-- `trade_updates_scraper.check_trade_updates`: on first run just persist
the latest message id; otherwise extract the messages after the anchor,
keep the ones whose URL is ledgered, run the UPDATER batch, and only then
advance and persist the cursor. -/
def check_trade_updates {α : Type} (P : DriverParams α) (msgs : List Msg)
    (s : ScrapeState α) : ScrapeState α × List (Ev α) :=
  match s.last_trade_updates_message_id with
  | none =>
    match msgs.getLast? with
    | some m =>
      let s1 : ScrapeState α := { s with last_trade_updates_message_id := some m.id }
      (s1, [Ev.save s1])
    | none => (s, [])
  | some last_seen_id =>
    let r := extract_new_trade_updates msgs last_seen_id
    if r.1 = [] then (s, [])
    else
      let actionable := r.1.filter (fun u => (lookupUrl s.active_trades u).isSome)
      let u := update_active_trades_from_urls P actionable "UPDATER" s
      let s2 : ScrapeState α :=
        { u.1 with last_trade_updates_message_id := some (r.2.getLast?.getD last_seen_id) }
      (s2, u.2 ++ [Ev.save s2])

/-! ## Spec-side comparator and concrete fixtures -/

/-- Modelled from the spec: "the symmetric difference against the stored set
yields newly appeared URLs" — the symmetric difference of the visible and
stored URL sets, for comparison with the code's `scrape_new_urls`. -/
def specSymmDiff (s t : Finset String) : Finset String :=
  (s \ t) ∪ (t \ s)

/-- Handler environment with the default config values: all three default
traders followed and provisioned with clients. -/
def env0 : HLEnv := ⟨FOLLOWED_TRADERS, FOLLOWED_TRADERS⟩

/-- A venue oracle: one successful entry order of amount 2, a resting
position of size 2, close orders succeed. -/
def orc0 : HLVenueOracle := ⟨[⟨some 2, none, none⟩], some 2, true⟩

/-- A venue oracle whose entry orders report no amounts, with a resting
position of size 2. -/
def orc1 : HLVenueOracle := ⟨[], some 2, true⟩

/-- A fully parsed signal whose extracted trader is the parser's "Unknown"
default (not in the followed set). -/
def tdU : TradeData :=
  ⟨"Unknown", some "BTC/USDT", some "long", [100], some 95, some 110, [],
    none, none⟩

/-- A signal from a followed trader whose incoming fields include a closed
price alongside changed stop/take-profit values. -/
def td5 : TradeData :=
  ⟨"Trader1", some "BTC/USDT", some "long", [100], some 90, some 120, [],
    some 95, none⟩

/-- The empty initial state (`default_state()`). -/
def s0 : ScrapeState TradeData := ⟨none, [], ∅⟩

/-- Driver collaborators: default followed traders, every URL parses to
`tdU`, and the Hyperliquid handler under `env0`/`orc0`. -/
def P0 : DriverParams TradeData :=
  ⟨FOLLOWED_TRADERS, fun _ => .ok (some tdU),
    fun crud td _ => .ok (hl_handle_trade_update env0 orc0 td crud).1⟩

/-- One visible create-feed block: followed trader, one URL, long emoji. -/
def blocks0 : List Block := [⟨true, some "Trader1", ["u"], ["🟢"]⟩]

/-- A parsed signal from a trader with a configured Bybit client. -/
def tdP : TradeData :=
  ⟨"Perdu", some "BTC/USDT", some "long", [100], some 95, some 110, [],
    none, none⟩

/-- A feed snapshot showing only URL "a". -/
def blocks3 : List Block := [⟨true, some "Trader1", ["a"], []⟩]

/-- A state that has previously seen URLs "a" and "b". -/
def s3 : ScrapeState TradeData := ⟨none, [], {"a", "b"}⟩

/-! ## Theorems -/

/-- C6: for every sizing call with a positive risk budget and a stop loss
different from the average entry price, the returned per-entry quantity
times the average entry price is at least the $10 Hyperliquid minimum
notional; and with a zero/unset risk budget the quantity is exactly
`minimum_notional / average_entry_price`. -/
theorem C6_sizing_bounds (entries : List ℚ) (stop : Option ℚ) (r : ℚ)
    (havg : 0 < avg_of entries) (hr : 0 < r)
    (hne : stop ≠ some (avg_of entries)) :
    10 ≤ hl_position_size entries stop (some r) * avg_of entries
    ∧ (∀ st, hl_position_size entries st none = 10 / avg_of entries)
    ∧ (∀ st, hl_position_size entries st (some 0) = 10 / avg_of entries) := by
  have ha : avg_of entries ≠ 0 := ne_of_gt havg
  refine ⟨?_, ?_, ?_⟩
  · unfold hl_position_size
    have hr0 : ¬((some r : Option ℚ) = some 0 ∨ (some r : Option ℚ) = none) := by
      simp [ne_of_gt hr]
    rw [if_neg hr0]
    rcases stop with _ | sl
    · simp only [truthyQ, Bool.false_and, Bool.false_eq_true, if_false,
        if_neg (by simp : ¬(false && (avg_of entries != 0)) = true)]
      rw [div_mul_cancel₀ _ ha]
    · by_cases hs : sl = 0
      · subst hs
        have : (truthyQ (some 0) && (avg_of entries != 0)) = false := by
          simp [truthyQ]
        rw [if_neg (by simp [this])]
        rw [div_mul_cancel₀ _ ha]
      · have hcond : (truthyQ (some sl) && (avg_of entries != 0)) = true := by
          simp [truthyQ, hs, ha]
        rw [if_pos hcond]
        have hslne : sl ≠ avg_of entries := fun h => hne (by rw [h])
        have hsd : 0 < |avg_of entries - sl| / avg_of entries :=
          div_pos (abs_pos.mpr (sub_ne_zero.mpr (Ne.symm hslne))) havg
        simp only [Option.getD_some]
        rw [if_pos hsd]
        set pv := r / (|avg_of entries - sl| / avg_of entries) with hpv
        by_cases hlt : pv / avg_of entries * avg_of entries < 10
        · rw [if_pos hlt, div_mul_cancel₀ _ ha]
        · rw [if_neg hlt]
          exact le_of_not_lt hlt
  · intro st; unfold hl_position_size; rw [if_pos (by simp)]
  · intro st; unfold hl_position_size; rw [if_pos (by simp)]

/-- C6 witness: the bound holds at entries `[100]`, stop `95`, risk `$1`. -/
theorem C6_witness :
    10 ≤ hl_position_size [100] (some 95) (some 1) * avg_of [100]
    ∧ (∀ st, hl_position_size [100] st none = 10 / avg_of [100])
    ∧ (∀ st, hl_position_size [100] st (some 0) = 10 / avg_of [100]) :=
  C6_sizing_bounds [100] (some 95) 1 (by norm_num [avg_of]) (by norm_num)
    (by norm_num [avg_of])

/-- C7: the risk-based sizer of `order_executor.py` raises exactly when the
stop loss equals the entry price, and for no other input; the Hyperliquid
sizing path instead falls back to the minimum-notional size at zero stop
distance (a fallback is available there, so it never raises). -/
theorem C7_sizing_error_condition :
    (∀ e sl r : ℚ, isError (calculate_position_size e sl r) = true ↔ e = sl)
    ∧ (∀ (entries : List ℚ) (r : ℚ), 0 < avg_of entries → r ≠ 0 →
        hl_position_size entries (some (avg_of entries)) (some r) =
          10 / avg_of entries) := by
  constructor
  · intro e sl r
    unfold calculate_position_size
    by_cases h : |e - sl| = 0
    · rw [if_pos h]
      simp [isError, sub_eq_zero.mp (abs_eq_zero.mp h)]
    · rw [if_neg h]
      simp only [isError, Bool.false_eq_true, false_iff]
      exact fun he => h (by rw [he, sub_self, abs_zero])
  · intro entries r havg hr
    unfold hl_position_size
    rw [if_neg (by simp [hr])]
    have hcond : (truthyQ (some (avg_of entries)) && (avg_of entries != 0)) = true := by
      simp [truthyQ, ne_of_gt havg]
    rw [if_pos hcond]
    simp only [Option.getD_some, sub_self, abs_zero, zero_div]
    rw [if_neg (by exact lt_irrefl 0)]

/-- C7 witness: sizing at entry=stop fails; the Hyperliquid fallback returns
the minimum size at zero stop distance. -/
theorem C7_witness :
    isError (calculate_position_size 100 100 5) = true
    ∧ hl_position_size [100] (some (avg_of [100])) (some 1) = 10 / avg_of [100] :=
  ⟨(C7_sizing_error_condition.1 100 100 5).mpr rfl,
   C7_sizing_error_condition.2 [100] 1 (by norm_num [avg_of]) (by norm_num)⟩

/-- An always-retryably-failing call makes exactly 3 attempts, sleeping 1s
then 2s between them, and propagates the last error. -/
theorem with_retry_three_failures {α : Type} (call : ℕ → Except String α)
    (hfail : ∀ n, n < 3 → ∃ m, call n = .error m ∧ nonRetryable m = false) :
    ∃ m2, call 2 = .error m2 ∧
      with_retry call 3 = ⟨.failed m2, [0, 1, 2], [1, 2]⟩ := by
  obtain ⟨m0, h0, hn0⟩ := hfail 0 (by norm_num)
  obtain ⟨m1, h1, hn1⟩ := hfail 1 (by norm_num)
  obtain ⟨m2, h2, hn2⟩ := hfail 2 (by norm_num)
  refine ⟨m2, h2, ?_⟩
  unfold with_retry
  show with_retry_aux call 3 3 0 = _
  rw [show (3 : ℕ) = 2 + 1 from rfl, with_retry_aux]
  rw [h0]
  simp only [hn0, Bool.false_eq_true, if_false]
  rw [if_neg (by norm_num)]
  rw [show (2 : ℕ) = 1 + 1 from rfl, with_retry_aux]
  rw [h1]
  simp only [hn1, Bool.false_eq_true, if_false]
  rw [if_neg (by norm_num)]
  rw [show (1 : ℕ) = 0 + 1 from rfl, with_retry_aux]
  rw [h2]
  simp only [hn2, Bool.false_eq_true, if_false]
  rw [if_pos (by norm_num)]
  rfl

/-- A call succeeding on its first attempt returns it immediately. -/
theorem with_retry_first_success {α : Type} (call : ℕ → Except String α)
    (a : α) (h : call 0 = .ok a) :
    with_retry call 3 = ⟨.ok a, [0], []⟩ := by
  unfold with_retry
  show with_retry_aux call 3 3 0 = _
  rw [show (3 : ℕ) = 2 + 1 from rfl, with_retry_aux, h]

/-- C8 counterexample: a call that always fails with a retryable error is
attempted exactly 3 times, but the inter-attempt delays are 1s and 2s only —
never the claimed 1s, 2s, 4s (3 attempts leave only 2 gaps). -/
theorem C8_counterexample :
    with_retry (fun _ => (Except.error "network timeout" : Except String Unit)) 3 =
      ⟨.failed "network timeout", [0, 1, 2], [1, 2]⟩
    ∧ ([1, 2] : List ℕ) ≠ [1, 2, 4] := by
  exact ⟨by decide, by decide⟩

/-- C8 (amended): a venue call that always fails with a retryable error is
attempted exactly 3 times, with inter-attempt delays of 1s and 2s (two gaps,
no 4s wait), and then the failure propagates; sibling entry orders in the
same `place_orders` fan-out are unaffected. -/
theorem C8_retry_attempts {α : Type} (call : ℕ → Except String α)
    (hfail : ∀ n, n < 3 → ∃ m, call n = .error m ∧ nonRetryable m = false) :
    (with_retry call 3).attempts = [0, 1, 2]
    ∧ (with_retry call 3).sleeps = [1, 2]
    ∧ (∃ m, (with_retry call 3).result = .failed m)
    ∧ ∀ (β : Type) (callAt : ℚ → ℕ → Except String β) (e1 e2 e3 : ℚ)
        (o1 o3 : β),
        callAt e1 0 = .ok o1 →
        (∀ n, n < 3 → ∃ m, callAt e2 n = .error m ∧ nonRetryable m = false) →
        callAt e3 0 = .ok o3 →
        gather_successful (place_orders_outcomes callAt [e1, e2, e3]) = [o1, o3] := by
  obtain ⟨m2, h2, htr⟩ := with_retry_three_failures call hfail
  refine ⟨by rw [htr], by rw [htr], ⟨m2, by rw [htr]⟩, ?_⟩
  intro β callAt e1 e2 e3 o1 o3 hok1 hfail2 hok3
  obtain ⟨m2', h2', htr2⟩ := with_retry_three_failures (callAt e2) hfail2
  unfold place_orders_outcomes gather_successful
  simp [with_retry_first_success (callAt e1) o1 hok1,
    with_retry_first_success (callAt e3) o3 hok3, htr2]

/-- C8 witness: the amended retry bounds at a concrete always-failing call. -/
theorem C8_witness :
    (with_retry (fun _ => (Except.error "rate limit" : Except String Unit)) 3).attempts = [0, 1, 2]
    ∧ (with_retry (fun _ => (Except.error "rate limit" : Except String Unit)) 3).sleeps = [1, 2] :=
  ⟨(C8_retry_attempts _ (fun n _ => ⟨"rate limit", rfl, by decide⟩)).1,
   (C8_retry_attempts _ (fun n _ => ⟨"rate limit", rfl, by decide⟩)).2.1⟩

/-- C9: a venue call whose error message indicates the precondition is
already satisfied returns a null result immediately on the first attempt —
no retry, no sleep, no raise — and `cancel_orders` counts such an order as
canceled (a successful no-op). -/
theorem C9_noop_on_first_attempt {α : Type} (call : ℕ → Except String α)
    (msg : String) (h1 : call 0 = .error msg)
    (h2 : strContains (strLower msg) "already canceled" = true ∨
          strContains (strLower msg) "not found" = true ∨
          strContains (strLower msg) "does not exist" = true) :
    with_retry call 3 = ⟨.noop, [0], []⟩
    ∧ ∀ (cancelCall : String → ℕ → Except String Unit) (oid : String),
        oid ≠ "" → cancelCall oid 0 = .error msg →
        cancel_orders cancelCall [⟨some oid, none, "buy"⟩] none = 1 := by
  have hnr : nonRetryable msg = true := by
    unfold nonRetryable
    rcases h2 with h | h | h <;> simp [h]
  have hwr : ∀ (β : Type) (c : ℕ → Except String β), c 0 = .error msg →
      with_retry c 3 = ⟨.noop, [0], []⟩ := by
    intro β c hc
    unfold with_retry
    show with_retry_aux c 3 3 0 = _
    rw [show (3 : ℕ) = 2 + 1 from rfl, with_retry_aux, hc]
    simp [hnr]
  refine ⟨hwr α call h1, ?_⟩
  intro cancelCall oid hoid hc
  unfold cancel_orders
  rw [if_neg (by simp)]
  simp only
  rw [if_neg (by simp)]
  simp only [List.foldl_cons, List.foldl_nil, pyOrS]
  rw [if_neg hoid]
  dsimp only
  rw [if_pos hoid, hwr Unit (cancelCall oid) hc]

/-- C9 witness: "Order already canceled" yields an immediate no-op and is
counted as a successful cancellation. -/
theorem C9_witness :
    with_retry (fun _ => (Except.error "Order already canceled" : Except String Unit)) 3 =
      ⟨.noop, [0], []⟩
    ∧ cancel_orders (fun _ _ => Except.error "Order already canceled")
        [⟨some "42", none, "buy"⟩] none = 1 := by
  have h := C9_noop_on_first_attempt
    (fun _ => (Except.error "Order already canceled" : Except String Unit))
    "Order already canceled" rfl (Or.inl (by decide))
  exact ⟨h.1, h.2 (fun _ _ => Except.error "Order already canceled") "42"
    (by decide) rfl⟩

/-- If the anchor id never occurs, the extraction fold never sets the
`found_anchor` flag and collects nothing. -/
theorem extract_fold_no_anchor (anchor : String) (msgs : List Msg)
    (h : anchor ∉ msgs.map Msg.id) (acc2 : List String × List String) :
    msgs.foldl (extract_step anchor) (false, acc2) = (false, acc2) := by
  induction msgs generalizing acc2 with
  | nil => rfl
  | cons m t ih =>
    simp only [List.map_cons, List.mem_cons] at h
    push_neg at h
    have hne : ¬(m.id = anchor) := fun he => h.1 he.symm
    have hstep : extract_step anchor (false, acc2) m = (false, acc2) := by
      simp [extract_step, hne]
    rw [List.foldl_cons, hstep]
    exact ih h.2 acc2

/-- C10: when the stored anchor id does not occur among the visible update
messages, `extract_new_trade_updates` returns empty lists, and the cycle
leaves the whole state — in particular the stored cursor — unchanged. -/
theorem C10_missing_anchor {α : Type} (msgs : List Msg) (anchor : String)
    (h : anchor ∉ msgs.map Msg.id) :
    extract_new_trade_updates msgs anchor = ([], [])
    ∧ ∀ (P : DriverParams α) (s : ScrapeState α),
        s.last_trade_updates_message_id = some anchor →
        check_trade_updates P msgs s = (s, []) := by
  have he : extract_new_trade_updates msgs anchor = ([], []) := by
    unfold extract_new_trade_updates
    rw [extract_fold_no_anchor anchor msgs h ([], [])]
  refine ⟨he, ?_⟩
  intro P s hs
  unfold check_trade_updates
  rw [hs]
  simp [he]

/-- C10 witness: a concrete feed whose anchor "zzz" is absent. -/
theorem C10_witness :
    extract_new_trade_updates [⟨"m1", some "h"⟩] "zzz" = ([], [])
    ∧ check_trade_updates P0 [⟨"m1", some "h"⟩]
        (⟨some "zzz", [], ∅⟩ : ScrapeState TradeData) =
      ((⟨some "zzz", [], ∅⟩ : ScrapeState TradeData), []) :=
  ⟨(C10_missing_anchor (α := TradeData) [⟨"m1", some "h"⟩] "zzz" (by decide)).1,
   (C10_missing_anchor [⟨"m1", some "h"⟩] "zzz" (by decide)).2 P0 _ rfl⟩

/-- C4: for a URL already ledgered, the Bybit UPDATE branch diffs exactly
the keys entries / stop_loss / take_profit / closed_price by value
inequality — a key is in the diff iff its stored and incoming values differ
— and an identical resubmission (all tracked values equal) produces no
venue action. -/
theorem C4_update_diff (clients : List String)
    (ledger : List (String × TradeData)) (url : String)
    (old_trade new_trade : TradeData)
    (hc : new_trade.trader ∈ clients)
    (hl : ledger.lookup url = some old_trade) :
    (∀ k, k ∈ bybit_diffs old_trade new_trade ↔
        tradeField old_trade k ≠ tradeField new_trade k)
    ∧ ((∀ k, tradeField old_trade k = tradeField new_trade k) →
        bybit_handle_trade_update clients ledger new_trade "UPDATE" url = []) := by
  constructor
  · intro k
    have hk : k ∈ trackedKeys := by cases k <;> simp [trackedKeys]
    simp [bybit_diffs, List.mem_filter, hk]
  · intro hall
    have hd : bybit_diffs old_trade new_trade = [] := by
      simp only [bybit_diffs, List.filter_eq_nil_iff]
      intro k hk
      simp [hall k]
    unfold bybit_handle_trade_update
    rw [if_neg (by simp [hc])]
    rw [if_neg (by decide), if_pos rfl, hl]
    simp [hd]

/-- C4 witness: identical resubmission of a concrete ledgered trade. -/
theorem C4_witness :
    (∀ k, k ∈ bybit_diffs tdP tdP ↔ tradeField tdP k ≠ tradeField tdP k)
    ∧ ((∀ k, tradeField tdP k = tradeField tdP k) →
        bybit_handle_trade_update ["Perdu", "$Silla"] [("u", tdP)] tdP
          "UPDATE" "u" = []) :=
  C4_update_diff ["Perdu", "$Silla"] [("u", tdP)] "u" tdP tdP (by decide)
    (by decide)

/-- C3 counterexample: with stored set `{a, b}` and visible set `{a}`, the
detector yields the empty set while the symmetric difference is `{b}` — the
yielded candidates are the one-sided set difference, not the symmetric
difference. -/
theorem C3_counterexample :
    scrape_new_urls blocks3 s3 = ∅
    ∧ specSymmDiff (collect_current_urls blocks3) s3.all_seen_urls = {"b"}
    ∧ ({"b"} : Finset String) ≠ ∅ :=
  ⟨by decide, by decide, by decide⟩

/-- A cycle that detects no new URLs only replaces the stored seen-set and
saves, performing no venue attempt. -/
theorem scrape_no_new {α : Type} (P : DriverParams α) (blocks : List Block)
    (s : ScrapeState α) (h : scrape_new_urls blocks s = ∅) :
    scrape_and_parse_active_trades P blocks s =
      ({ s with all_seen_urls := collect_current_urls blocks },
       [Ev.save { s with all_seen_urls := collect_current_urls blocks }]) := by
  simp only [scrape_and_parse_active_trades]
  rw [if_pos h]

/-- C3 (amended): each cycle the detector yields exactly the one-sided set
difference (currently visible minus stored — newly appeared URLs only,
disappeared URLs are not yielded), replaces the stored set wholesale with
the current set, and a second run on the same unchanged snapshot yields no
new URLs and performs no venue attempt. -/
theorem C3_detector {α : Type} (P : DriverParams α) (blocks : List Block)
    (s : ScrapeState α) :
    (∀ u, u ∈ scrape_new_urls blocks s ↔
        u ∈ collect_current_urls blocks ∧ u ∉ s.all_seen_urls)
    ∧ (scrape_and_parse_active_trades P blocks s).1.all_seen_urls =
        collect_current_urls blocks
    ∧ scrape_new_urls blocks (scrape_and_parse_active_trades P blocks s).1 = ∅
    ∧ (scrape_and_parse_active_trades P blocks
        (scrape_and_parse_active_trades P blocks s).1).2 =
        [Ev.save (scrape_and_parse_active_trades P blocks s).1] := by
  have h2 : (scrape_and_parse_active_trades P blocks s).1.all_seen_urls =
      collect_current_urls blocks := by
    simp only [scrape_and_parse_active_trades]
    split
    · rfl
    · split
      · rfl
      · rfl
  have h3 : scrape_new_urls blocks (scrape_and_parse_active_trades P blocks s).1 = ∅ := by
    unfold scrape_new_urls
    rw [h2, Finset.sdiff_self]
  refine ⟨fun u => Finset.mem_sdiff, h2, h3, ?_⟩
  have hfix : ({ (scrape_and_parse_active_trades P blocks s).1 with
      all_seen_urls := collect_current_urls blocks } : ScrapeState α) =
      (scrape_and_parse_active_trades P blocks s).1 := by
    rw [← h2]
  rw [scrape_no_new P blocks _ h3, hfix]

/-- The Hyperliquid UPDATE sub-handler never issues a position-closing
market order: its trace is drawn from cancel/place/position-query/SLTP
calls only. -/
theorem close_not_in_update_trace (orc : HLVenueOracle) (entries : List ℚ)
    (sl : Option ℚ) (side : Option String) (tps : List ℚ) :
    HLAction.closeMarketOrder ∉ (handle_update_trade orc entries sl side tps).2 := by
  simp only [handle_update_trade]
  split_ifs <;> simp

/-- For any environment, oracle and trade data, routing an UPDATE through
the Hyperliquid handler issues no position-closing market order. -/
theorem hl_update_no_close (env : HLEnv) (orc : HLVenueOracle)
    (td : TradeData) :
    HLAction.closeMarketOrder ∉ (hl_handle_trade_update env orc td "UPDATE").2 := by
  have hne1 : ¬(("UPDATE" : String) = "CREATE") := by decide
  simp only [hl_handle_trade_update]
  by_cases h1 : strTrim td.trader ∉ env.followed
  · rw [if_pos h1]; simp
  rw [if_neg h1]
  by_cases h2 : strTrim td.trader ∉ env.clients
  · rw [if_pos h2]; simp
  rw [if_neg h2]
  by_cases h3 : ¬truthyS td.symbol = true
  · rw [if_pos h3]; simp
  rw [if_neg h3, if_neg hne1]
  simp only [if_true]
  exact close_not_in_update_trace _ _ _ _ _

/-- C5 counterexample: an UPDATE whose incoming data carries a closed price
(and a live position exists) runs only the update actions on Hyperliquid —
the `elif` routing makes UPDATE and CLOSE mutually exclusive, so no close
action is evaluated at all, last or otherwise. -/
theorem C5_counterexample :
    hl_handle_trade_update env0 orc1 td5 "UPDATE" =
      (true, [HLAction.cancelOrders, HLAction.placeOrders,
        HLAction.getPositionInfo, HLAction.setSLTP])
    ∧ HLAction.closeMarketOrder ∉ (hl_handle_trade_update env0 orc1 td5 "UPDATE").2
    ∧ td5.closed_price = some 95
    ∧ orc1.position_szi = some 2 :=
  ⟨by decide, by decide, rfl, rfl⟩

/-- C5 (amended): in the Bybit handler every applicable diff-driven action
runs in the same cycle and the CLOSE action is evaluated strictly after the
entries and stop/take-profit actions; the Hyperliquid handler instead
dispatches each signal to exactly one branch, so an UPDATE whose data
includes a changed closed price runs only the update actions and never a
close action. -/
theorem C5_close_ordering :
    (∀ old_trade new_trade : TradeData,
      TrackedKey.closed_price ∈ bybit_diffs old_trade new_trade →
      ∃ front, bybit_update_actions (bybit_diffs old_trade new_trade) =
          front ++ [BybitAction.closePosition]
        ∧ BybitAction.closePosition ∉ front
        ∧ (TrackedKey.entries ∈ bybit_diffs old_trade new_trade →
            BybitAction.cancelLimitOrders ∈ front ∧
              BybitAction.placeLimitOrder ∈ front)
        ∧ ((TrackedKey.stop_loss ∈ bybit_diffs old_trade new_trade ∨
            TrackedKey.take_profit ∈ bybit_diffs old_trade new_trade) →
            BybitAction.setTradingStop ∈ front))
    ∧ (∀ (env : HLEnv) (orc : HLVenueOracle) (td : TradeData),
        HLAction.closeMarketOrder ∉ (hl_handle_trade_update env orc td "UPDATE").2) := by
  constructor
  · intro old_trade new_trade hclosed
    refine ⟨(if TrackedKey.entries ∈ bybit_diffs old_trade new_trade then
        [BybitAction.cancelLimitOrders, BybitAction.placeLimitOrder] else [])
      ++ (if TrackedKey.stop_loss ∈ bybit_diffs old_trade new_trade ∨
            TrackedKey.take_profit ∈ bybit_diffs old_trade new_trade then
        [BybitAction.setTradingStop] else []), ?_, ?_, ?_, ?_⟩
    · simp only [bybit_update_actions, if_pos hclosed, List.append_assoc]
    · split_ifs <;> simp
    · intro h1; rw [if_pos h1]; simp
    · intro h2; rw [if_pos h2]; simp
  · exact hl_update_no_close

/-- C5 witness: a diff touching entries and closed price runs both actions
with the close evaluated last. -/
theorem C5_witness :
    ∃ front, bybit_update_actions (bybit_diffs tdP
        { tdP with entries := [101], closed_price := some 95 }) =
        front ++ [BybitAction.closePosition]
      ∧ BybitAction.closePosition ∉ front
      ∧ (TrackedKey.entries ∈ bybit_diffs tdP
          { tdP with entries := [101], closed_price := some 95 } →
          BybitAction.cancelLimitOrders ∈ front ∧
            BybitAction.placeLimitOrder ∈ front)
      ∧ ((TrackedKey.stop_loss ∈ bybit_diffs tdP
            { tdP with entries := [101], closed_price := some 95 } ∨
          TrackedKey.take_profit ∈ bybit_diffs tdP
            { tdP with entries := [101], closed_price := some 95 }) →
          BybitAction.setTradingStop ∈ front) :=
  C5_close_ordering.1 tdP { tdP with entries := [101], closed_price := some 95 }
    (by decide)

/-- Ledger membership after the URL loop: a URL is ledgered afterwards iff
it was ledgered before, or it was in the batch, parsed successfully, and its
handler call returned without raising (whatever boolean it returned). -/
theorem processUrls_lookup {α : Type} (P : DriverParams α) (crud : String)
    (urls : List String) (ledger : List (String × α)) (evs : List (Ev α))
    (u : String) :
    (lookupUrl (urls.foldl (processUrlTraced P crud) (ledger, evs)).1 u).isSome = true ↔
      ((lookupUrl ledger u).isSome = true ∨
        (u ∈ urls ∧ ∃ td, P.fetchParse u = .ok (some td) ∧
          ∃ b, P.handler crud td u = .ok b)) := by
  induction urls generalizing ledger evs with
  | nil => simp
  | cons v t ih =>
    rw [List.foldl_cons]
    by_cases huv : u = v
    · subst huv
      obtain ⟨r, hf⟩ : ∃ r, P.fetchParse u = r := ⟨_, rfl⟩
      rcases r with e | o
      · have hC : ¬∃ td, P.fetchParse u = Except.ok (some td) ∧
            ∃ b, P.handler crud td u = Except.ok b := by
          rintro ⟨td, htd, -⟩
          rw [hf] at htd
          cases htd
        rw [show processUrlTraced P crud (ledger, evs) u = (ledger, evs) from by
          simp [processUrlTraced, hf]]
        rw [ih]
        constructor
        · rintro (h | ⟨-, hex⟩)
          · exact Or.inl h
          · exact absurd hex hC
        · rintro (h | ⟨-, hex⟩)
          · exact Or.inl h
          · exact absurd hex hC
      · rcases o with _ | td0
        · have hC : ¬∃ td, P.fetchParse u = Except.ok (some td) ∧
              ∃ b, P.handler crud td u = Except.ok b := by
            rintro ⟨td, htd, -⟩
            rw [hf] at htd
            simp at htd
          rw [show processUrlTraced P crud (ledger, evs) u = (ledger, evs) from by
            simp [processUrlTraced, hf]]
          rw [ih]
          constructor
          · rintro (h | ⟨-, hex⟩)
            · exact Or.inl h
            · exact absurd hex hC
          · rintro (h | ⟨-, hex⟩)
            · exact Or.inl h
            · exact absurd hex hC
        · obtain ⟨rh, hh⟩ : ∃ rh, P.handler crud td0 u = rh := ⟨_, rfl⟩
          rcases rh with eh | b0
          · have hC : ¬∃ td, P.fetchParse u = Except.ok (some td) ∧
                ∃ b, P.handler crud td u = Except.ok b := by
              rintro ⟨td, htd, b, hb⟩
              rw [hf] at htd
              simp only [Except.ok.injEq, Option.some.injEq] at htd
              subst htd
              rw [hh] at hb
              cases hb
            rw [show processUrlTraced P crud (ledger, evs) u =
                (ledger, evs ++ [Ev.attempt u]) from by
              simp [processUrlTraced, hf, hh]]
            rw [ih]
            constructor
            · rintro (h | ⟨-, hex⟩)
              · exact Or.inl h
              · exact absurd hex hC
            · rintro (h | ⟨-, hex⟩)
              · exact Or.inl h
              · exact absurd hex hC
          · have hC : ∃ td, P.fetchParse u = Except.ok (some td) ∧
                ∃ b, P.handler crud td u = Except.ok b := ⟨td0, hf, b0, hh⟩
            rw [show processUrlTraced P crud (ledger, evs) u =
                (ledgerSet ledger u td0, evs ++ [Ev.attempt u]) from by
              simp [processUrlTraced, hf, hh]]
            rw [ih]
            constructor
            · intro _
              exact Or.inr ⟨List.mem_cons_self u t, hC⟩
            · intro _
              left
              simp [ledgerSet, lookupUrl]
    · have hmem : (u ∈ v :: t ∧ ∃ td, P.fetchParse u = Except.ok (some td) ∧
          ∃ b, P.handler crud td u = Except.ok b) ↔
          (u ∈ t ∧ ∃ td, P.fetchParse u = Except.ok (some td) ∧
            ∃ b, P.handler crud td u = Except.ok b) := by
        simp only [List.mem_cons]
        constructor
        · rintro ⟨h | h, hex⟩
          · exact absurd h huv
          · exact ⟨h, hex⟩
        · rintro ⟨h, hex⟩
          exact ⟨Or.inr h, hex⟩
      rcases hfv : P.fetchParse v with e | o
      · rw [show processUrlTraced P crud (ledger, evs) v = (ledger, evs) from by
          simp [processUrlTraced, hfv]]
        rw [ih, hmem]
      · rcases o with _ | td
        · rw [show processUrlTraced P crud (ledger, evs) v = (ledger, evs) from by
            simp [processUrlTraced, hfv]]
          rw [ih, hmem]
        · rcases hhv : P.handler crud td v with eh | b
          · rw [show processUrlTraced P crud (ledger, evs) v =
                (ledger, evs ++ [Ev.attempt v]) from by
              simp [processUrlTraced, hfv, hhv]]
            rw [ih, hmem]
          · rw [show processUrlTraced P crud (ledger, evs) v =
                (ledgerSet ledger v td, evs ++ [Ev.attempt v]) from by
              simp [processUrlTraced, hfv, hhv]]
            rw [ih]
            have hvu : v ≠ u := fun h => huv (Eq.symm h)
            have hlu : lookupUrl (ledgerSet ledger v td) u = lookupUrl ledger u := by
              simp [ledgerSet, lookupUrl, hvu]
            rw [hlu, hmem]

/-- If every URL in the batch fails to parse, the loop is a no-op. -/
theorem processUrls_all_unparsed {α : Type} (P : DriverParams α)
    (crud : String) (urls : List String)
    (acc : List (String × α) × List (Ev α))
    (h : ∀ u ∈ urls, P.fetchParse u = .ok none) :
    urls.foldl (processUrlTraced P crud) acc = acc := by
  induction urls generalizing acc with
  | nil => rfl
  | cons v t ih =>
    rw [List.foldl_cons, show processUrlTraced P crud acc v = acc from by
      simp [processUrlTraced, h v (List.mem_cons_self v t)]]
    exact ih _ (fun u hu => h u (List.mem_cons_of_mem _ hu))

/-- C2 (amended): a TradeRecord exists in the ledger for a URL iff it
already existed or a processing pass visited the URL, its content parsed
successfully, and the handler call returned without raising — the record is
stored even when the handler rejected the signal (returned `False`), e.g.
for an unfollowed trader; records are never deleted; and a batch whose
content fails the parser's completeness check leaves the ledger unchanged. -/
theorem C2_ledger_characterization {α : Type} (P : DriverParams α)
    (urls : List String) (crud : String) (s : ScrapeState α) :
    (∀ u, (lookupUrl s.active_trades u).isSome = true →
        (lookupUrl
          (update_active_trades_from_urls P urls crud s).1.active_trades u).isSome = true)
    ∧ (∀ u,
        (lookupUrl
          (update_active_trades_from_urls P urls crud s).1.active_trades u).isSome = true ↔
        ((lookupUrl s.active_trades u).isSome = true ∨
          (u ∈ urls ∧ ∃ td, P.fetchParse u = .ok (some td) ∧
            ∃ b, P.handler crud td u = .ok b)))
    ∧ (∀ m : RegexMatches, extract_trade_fields_from_text m = none →
        ∀ (Q : DriverParams ParsedTrade) (urls2 : List String)
          (s2 : ScrapeState ParsedTrade),
          Q.fetchParse = (fun _ => Except.ok (extract_trade_fields_from_text m)) →
          (update_active_trades_from_urls Q urls2 crud s2).1.active_trades =
            s2.active_trades) := by
  have hchar : ∀ u,
      (lookupUrl
        (update_active_trades_from_urls P urls crud s).1.active_trades u).isSome = true ↔
      ((lookupUrl s.active_trades u).isSome = true ∨
        (u ∈ urls ∧ ∃ td, P.fetchParse u = .ok (some td) ∧
          ∃ b, P.handler crud td u = .ok b)) := by
    intro u
    exact processUrls_lookup P crud urls s.active_trades [] u
  refine ⟨fun u hu => (hchar u).mpr (Or.inl hu), hchar, ?_⟩
  intro m hm Q urls2 s2 hQ
  show (urls2.foldl (processUrlTraced Q crud) (s2.active_trades, [])).1 = _
  rw [processUrls_all_unparsed Q crud urls2 _ (fun u _ => by rw [hQ, hm])]

/-- C2 counterexample: a fully parsed CREATE signal whose extracted trader
"Unknown" is rejected by the handler (not in the followed set, handler
returns `False`) is nonetheless written into the ledger — the rejection does
not leave the ledger unchanged. -/
theorem C2_counterexample :
    (hl_handle_trade_update env0 orc0 tdU "CREATE").1 = false
    ∧ "Unknown" ∉ env0.followed
    ∧ lookupUrl s0.active_trades "u" = none
    ∧ lookupUrl
        (update_active_trades_from_urls P0 ["u"] "CREATE" s0).1.active_trades "u" =
        some tdU :=
  ⟨by decide, by decide, rfl, by decide⟩

/-- C2 witness: the membership characterization at a concrete batch. -/
theorem C2_witness :
    (lookupUrl
      (update_active_trades_from_urls P0 ["u"] "CREATE" s0).1.active_trades "u").isSome = true ↔
    ((lookupUrl s0.active_trades "u").isSome = true ∨
      ("u" ∈ ["u"] ∧ ∃ td, P0.fetchParse "u" = .ok (some td) ∧
        ∃ b, P0.handler "CREATE" td "u" = .ok b)) :=
  (C2_ledger_characterization P0 ["u"] "CREATE" s0).2.1 "u"

/-- The URL loop only appends venue-attempt events to the trace. -/
theorem processUrls_trace_attempts {α : Type} (P : DriverParams α)
    (crud : String) (urls : List String)
    (acc : List (String × α) × List (Ev α)) :
    ∃ us : List String,
      (urls.foldl (processUrlTraced P crud) acc).2 = acc.2 ++ us.map Ev.attempt := by
  induction urls generalizing acc with
  | nil => exact ⟨[], by simp⟩
  | cons v t ih =>
    rw [List.foldl_cons]
    obtain ⟨r, hf⟩ : ∃ r, P.fetchParse v = r := ⟨_, rfl⟩
    rcases r with e | o
    · rw [show processUrlTraced P crud acc v = acc from by
        simp [processUrlTraced, hf]]
      exact ih acc
    · rcases o with _ | td
      · rw [show processUrlTraced P crud acc v = acc from by
          simp [processUrlTraced, hf]]
        exact ih acc
      · obtain ⟨rh, hh⟩ : ∃ rh, P.handler crud td v = rh := ⟨_, rfl⟩
        rcases rh with eh | b
        · rw [show processUrlTraced P crud acc v =
              (acc.1, acc.2 ++ [Ev.attempt v]) from by
            simp [processUrlTraced, hf, hh]]
          obtain ⟨us, hus⟩ := ih (acc.1, acc.2 ++ [Ev.attempt v])
          exact ⟨v :: us, by simp [hus]⟩
        · rw [show processUrlTraced P crud acc v =
              (ledgerSet acc.1 v td, acc.2 ++ [Ev.attempt v]) from by
            simp [processUrlTraced, hf, hh]]
          obtain ⟨us, hus⟩ := ih (ledgerSet acc.1 v td, acc.2 ++ [Ev.attempt v])
          exact ⟨v :: us, by simp [hus]⟩

/-- C1 (amended): in the update-feed cycle every durable state write happens
after all venue attempts of that cycle (the trace is attempts followed by
saves), so that cursor is committed after its batch; the create-feed cycle,
however, persists the replaced seen-URL set as its very first event, before
any classification or venue attempt. -/
theorem C1_cursor_commit_order {α : Type} (P : DriverParams α)
    (msgs : List Msg) (blocks : List Block) (s : ScrapeState α) :
    (∃ (us : List String) (ss : List (ScrapeState α)),
      (check_trade_updates P msgs s).2 = us.map Ev.attempt ++ ss.map Ev.save)
    ∧ (∃ s1, (scrape_and_parse_active_trades P blocks s).2.head? =
        some (Ev.save s1)
        ∧ s1.all_seen_urls = collect_current_urls blocks) := by
  constructor
  · obtain ⟨c, hc⟩ : ∃ c, s.last_trade_updates_message_id = c := ⟨_, rfl⟩
    simp only [check_trade_updates, hc]
    rcases c with _ | anchor
    · dsimp only
      rcases hm : msgs.getLast? with _ | m
      · exact ⟨[], [], by simp⟩
      · exact ⟨[], [{ s with last_trade_updates_message_id := some m.id }],
          by simp⟩
    · dsimp only
      by_cases hr : (extract_new_trade_updates msgs anchor).1 = []
      · rw [if_pos hr]
        exact ⟨[], [], by simp⟩
      · rw [if_neg hr]
        obtain ⟨us, hus⟩ := processUrls_trace_attempts P "UPDATER"
          ((extract_new_trade_updates msgs anchor).1.filter
            (fun u => (lookupUrl s.active_trades u).isSome))
          (s.active_trades, [])
        refine ⟨us, [?_, ?_], ?_⟩
        · exact (update_active_trades_from_urls P
            ((extract_new_trade_updates msgs anchor).1.filter
              (fun u => (lookupUrl s.active_trades u).isSome)) "UPDATER" s).1
        · exact { (update_active_trades_from_urls P
              ((extract_new_trade_updates msgs anchor).1.filter
                (fun u => (lookupUrl s.active_trades u).isSome)) "UPDATER" s).1 with
            last_trade_updates_message_id :=
              some ((extract_new_trade_updates msgs anchor).2.getLast?.getD anchor) }
        · simp only [update_active_trades_from_urls, hus]
          simp
  · refine ⟨{ s with all_seen_urls := collect_current_urls blocks }, ?_, rfl⟩
    simp only [scrape_and_parse_active_trades]
    split
    · rfl
    · split
      · rfl
      · rfl

/-- C1 counterexample: a create-feed cycle whose first event is the durable
write of the seen-URL cursor already covering URL "u", while the venue
attempt for "u" only happens afterwards — the cursor is committed before
the batch it covers is attempted. -/
theorem C1_counterexample :
    (scrape_and_parse_active_trades P0 blocks0 s0).2 =
      [Ev.save ⟨none, [], {"u"}⟩, Ev.attempt "u",
        Ev.save ⟨none, [("u", tdU)], {"u"}⟩]
    ∧ "u" ∈ (ScrapeState.all_seen_urls (α := TradeData) ⟨none, [], {"u"}⟩) :=
  ⟨by decide, by decide⟩

end TradeScraper
